import Mathlib

/-!
Verification of the manners graceful-shutdown HTTP server wrapper.

The repository source (server.go) contains two variants of the package:
variant 1 tracks the last observed state of each connection in a field
(gconn.lastHTTPState) smuggled through the connection address, while
variant 2 keeps a map lastConnState from connections to their last
observed state, guarded by a reader-writer lock.  Both install a
ConnState callback on the wrapped http.Server that maintains a drain
counter (a sync.WaitGroup) of in-flight connections.

The embedding below models:
  - the http.ConnState lifecycle states;
  - the ConnState closure of variant 1 (server.go lines 243-282) as a
    pure function from the previous per-connection state and the new
    state to the waitgroup delta, the conn.Close decision and the
    forwarded observer calls;
  - the ConnState closure of variant 2 (server.go lines 577-624) as a
    state-transformer over an association-list rendering of the
    lastConnState map together with an integer waitgroup counter;
  - the return-value policies of both Serve variants, the two Close
    variants, and the listen / listenToUnix address handling of
    variant 2, with the operating system calls (stat, remove, listen)
    abstracted by an oracle describing their outcomes.

Go maps yield the zero value for missing keys; for http.ConnState the
zero value is StateNew, which the model reproduces with getD.
-/

namespace Manners

/-- The connection lifecycle states of net/http.ConnState. -/
inductive ConnState where
  | StateNew
  | StateActive
  | StateIdle
  | StateHijacked
  | StateClosed
deriving DecidableEq

/-- Result of one invocation of the variant-1 ConnState closure
(server.go lines 243-282) on a single connection: the updated
gconn.lastHTTPState field, the net wg.Add delta produced by
StartRoutine / FinishRoutine, whether conn.Close was called, the
arguments passed to the injected stateHandler observer (previous and
new state) when one is registered, and the new state passed to the
pre-existing orgConnState handler when one is installed. -/
structure V1ConnResult where
  lastHTTPState : ConnState
  wgDelta : Int
  closedConn : Bool
  stateHandlerCall : Option (ConnState × ConnState)
  orgConnStateCall : Option ConnState
deriving DecidableEq

/-- StartRoutine increments the waitgroup counter (wg.Add 1). -/
def StartRoutine (wg : Int) : Int := wg + 1

/-- FinishRoutine decrements the waitgroup counter (wg.Done). -/
def FinishRoutine (wg : Int) : Int := wg - 1

/-- The variant-1 ConnState closure (server.go lines 243-282), for one
connection.  closing is the atomic closing flag; hasStateHandler and
hasOrgConnState say whether s.stateHandler and the original ConnState
handler are non-nil.  The switch mirrors the source: StateNew starts a
routine; StateActive starts one only when coming back from StateIdle;
StateIdle closes the connection when the server is closing and always
finishes a routine; StateClosed and StateHijacked finish a routine
unless the connection was already idle.  The stateHandler is then
called with the previous state before lastHTTPState is overwritten. -/
def connStateV1 (closing : Bool) (hasStateHandler : Bool) (hasOrgConnState : Bool)
    (lastHTTPState : ConnState) (newState : ConnState) : V1ConnResult :=
  let wgDelta : Int :=
    match newState with
    | .StateNew => StartRoutine 0
    | .StateActive => if lastHTTPState = .StateIdle then StartRoutine 0 else 0
    | .StateIdle => FinishRoutine 0
    | .StateClosed => if lastHTTPState ≠ .StateIdle then FinishRoutine 0 else 0
    | .StateHijacked => if lastHTTPState ≠ .StateIdle then FinishRoutine 0 else 0
  { lastHTTPState := newState
    wgDelta := wgDelta
    closedConn := if newState = .StateIdle then closing else false
    stateHandlerCall := if hasStateHandler then some (lastHTTPState, newState) else none
    orgConnStateCall := if hasOrgConnState then some newState else none }

/-- Run the variant-1 closure over a whole sequence of notifications for
one connection, threading lastHTTPState (initially the Go zero value
StateNew) and accumulating the waitgroup counter. -/
def runLifetimeV1 (closing : Bool) (lastHTTPState : ConnState) (wg : Int) :
    List ConnState → Int
  | [] => wg
  | newState :: rest =>
      let r := connStateV1 closing false false lastHTTPState newState
      runLifetimeV1 closing r.lastHTTPState (wg + r.wgDelta) rest

/-- Terminal states: StateClosed and StateHijacked. -/
def isTerminal : ConnState → Bool
  | .StateClosed => true
  | .StateHijacked => true
  | _ => false

/-- The per-connection monotonic ordering of state notifications:
New, then Active alternating with Idle, ending in Closed or Hijacked. -/
def validStep : ConnState → ConnState → Bool
  | .StateNew, .StateActive => true
  | .StateNew, .StateClosed => true
  | .StateNew, .StateHijacked => true
  | .StateActive, .StateIdle => true
  | .StateActive, .StateClosed => true
  | .StateActive, .StateHijacked => true
  | .StateIdle, .StateActive => true
  | .StateIdle, .StateClosed => true
  | .StateIdle, .StateHijacked => true
  | _, _ => false

/-- A chain of notifications each of which is a valid step from the
previous state. -/
def validSeq : ConnState → List ConnState → Bool
  | _, [] => true
  | last, s :: rest => validStep last s && validSeq s rest

/-- A full lifetime trace: the first notification is StateNew and every
later one is a valid step from its predecessor. -/
def validLifetime : List ConnState → Bool
  | ConnState.StateNew :: rest => validSeq ConnState.StateNew rest
  | _ => false

/-- The trace ends in a terminal state (StateClosed or StateHijacked). -/
def endsTerminal : List ConnState → Bool
  | [] => false
  | [s] => isTerminal s
  | _ :: rest => endsTerminal rest

/-- Number of pending FinishRoutine calls owed by a connection whose
last observed state is the given one: New and Active connections hold
one waitgroup unit, Idle and terminal connections hold none. -/
def pending : ConnState → Int
  | .StateNew => 1
  | .StateActive => 1
  | _ => 0

lemma validStep_source_nonterminal (s a : ConnState) (h : validStep s a = true) :
    isTerminal s = false := by
  cases s <;> cases a <;> simp_all [validStep, isTerminal]

lemma wgDelta_of_terminal (closing : Bool) (s a : ConnState)
    (hs : isTerminal s = false) (ha : isTerminal a = true) (hv : validStep s a = true) :
    (connStateV1 closing false false s a).wgDelta = -pending s := by
  cases s <;> cases a <;>
    simp_all [connStateV1, validStep, isTerminal, pending, StartRoutine, FinishRoutine]

lemma wgDelta_of_nonterminal (closing : Bool) (s a : ConnState)
    (ha : isTerminal a = false) (hv : validStep s a = true) :
    (connStateV1 closing false false s a).wgDelta = pending a - pending s := by
  cases s <;> cases a <;>
    simp_all [connStateV1, validStep, isTerminal, pending, StartRoutine, FinishRoutine]

lemma runLifetimeV1_cons (closing : Bool) (s : ConnState) (wg : Int)
    (a : ConnState) (tr : List ConnState) :
    runLifetimeV1 closing s wg (a :: tr)
      = runLifetimeV1 closing a (wg + (connStateV1 closing false false s a).wgDelta) tr := rfl

lemma runLifetimeV1_terminal (closing : Bool) :
    ∀ (tr : List ConnState) (s : ConnState) (wg : Int),
      isTerminal s = false → validSeq s tr = true → endsTerminal tr = true →
      runLifetimeV1 closing s wg tr = wg - pending s
  | [], _, _, _, _, ht => by simp [endsTerminal] at ht
  | [a], s, wg, hs, hv, ht => by
      simp only [validSeq, Bool.and_eq_true] at hv
      simp only [endsTerminal] at ht
      rw [runLifetimeV1_cons, wgDelta_of_terminal closing s a hs ht hv.1]
      simp only [runLifetimeV1]
      ring
  | a :: b :: rest, s, wg, hs, hv, ht => by
      simp only [validSeq, Bool.and_eq_true] at hv
      simp only [endsTerminal] at ht
      have hseq : validSeq a (b :: rest) = true := by
        simp only [validSeq, Bool.and_eq_true]
        exact ⟨hv.2.1, hv.2.2⟩
      have hna : isTerminal a = false := validStep_source_nonterminal a b hv.2.1
      rw [runLifetimeV1_cons, wgDelta_of_nonterminal closing s a hna hv.1,
        runLifetimeV1_terminal closing (b :: rest) a (wg + (pending a - pending s)) hna hseq ht]
      ring

/-- Connections are identified by an abstract handle (net.Conn), here a
natural number. -/
abbrev Conn := Nat

/-- The variant-2 lastConnState map from connections to their last
observed state, rendered as an association list. -/
abbrev Tracker := List (Conn × ConnState)

/-- Go map read m[conn]: the first binding for the key, if any. -/
def mapLookup (c : Conn) : Tracker → Option ConnState
  | [] => none
  | (k, v) :: rest => if k = c then some v else mapLookup c rest

/-- Go map delete(m, conn): drop every binding for the key. -/
def mapErase (c : Conn) (m : Tracker) : Tracker :=
  m.filter (fun p => p.1 != c)

/-- Go map write m[conn] = st. -/
def mapInsert (c : Conn) (st : ConnState) (m : Tracker) : Tracker :=
  (c, st) :: mapErase c m

/-- The state a variant-2 GracefulServer threads through its ConnState
closure: the lastConnState map and the waitgroup drain counter. -/
structure V2State where
  lastConnState : Tracker
  counter : Int
deriving DecidableEq

/-- The state of a freshly constructed server: empty map (made by
NewWithServer) and a zero waitgroup counter. -/
def V2State.initial : V2State := { lastConnState := [], counter := 0 }

/-- Observable side effects of one invocation of the variant-2
ConnState closure: whether conn.Close was called and the new state
forwarded to the pre-existing originalConnState handler, if any. -/
structure V2Effects where
  closedConn : Bool
  originalConnStateCall : Option ConnState
deriving DecidableEq

/-- The variant-2 ConnState closure (server.go lines 577-624).  It
reads lastConnState from the map (a missing key yields the Go zero
value StateNew), runs the switch on the new state adjusting the
waitgroup via StartRoutine / FinishRoutine and possibly closing a
newly idle connection while the closing flag is set, then deletes the
map entry on StateClosed / StateHijacked and overwrites it otherwise,
and finally forwards the notification to originalConnState. -/
def connStateV2 (closing : Bool) (hasOriginalConnState : Bool) (st : V2State)
    (conn : Conn) (newState : ConnState) : V2State × V2Effects :=
  let lastConnState := (mapLookup conn st.lastConnState).getD .StateNew
  let counter : Int :=
    match newState with
    | .StateNew => StartRoutine st.counter
    | .StateActive =>
        if lastConnState = .StateIdle then StartRoutine st.counter else st.counter
    | .StateIdle => FinishRoutine st.counter
    | .StateClosed =>
        if lastConnState ≠ .StateIdle then FinishRoutine st.counter else st.counter
    | .StateHijacked =>
        if lastConnState ≠ .StateIdle then FinishRoutine st.counter else st.counter
  let closedConn := if newState = .StateIdle then closing else false
  let tracker :=
    if newState = .StateClosed ∨ newState = .StateHijacked then
      mapErase conn st.lastConnState
    else
      mapInsert conn newState st.lastConnState
  ({ lastConnState := tracker, counter := counter },
   { closedConn := closedConn
     originalConnStateCall := if hasOriginalConnState then some newState else none })

/-- Run the variant-2 closure over an interleaved sequence of
notifications (connection, new state). -/
def runEvents (closing : Bool) (st : V2State) : List (Conn × ConnState) → V2State
  | [] => st
  | (c, ns) :: rest => runEvents closing (connStateV2 closing false st c ns).1 rest

/-- A notification is admissible when the connection is unknown and
announces StateNew, or performs a valid step from its last recorded
state. -/
def validEvent (m : Tracker) (c : Conn) (ns : ConnState) : Bool :=
  match mapLookup c m with
  | none => decide (ns = ConnState.StateNew)
  | some s => validStep s ns

/-- Every notification of the sequence is admissible in the state the
previous ones produced. -/
def validEvents (closing : Bool) (st : V2State) : List (Conn × ConnState) → Bool
  | [] => true
  | (c, ns) :: rest =>
      validEvent st.lastConnState c ns &&
        validEvents closing (connStateV2 closing false st c ns).1 rest

/-- A connection counts against the drain: it is in a non-idle,
non-terminal state. -/
def inFlight : ConnState → Bool
  | .StateNew => true
  | .StateActive => true
  | _ => false

/-- Number of tracked connections currently in flight. -/
def inFlightCount (m : Tracker) : Nat :=
  (m.filter (fun p => inFlight p.2)).length

/-- The association list binds each connection at most once; true of
every state reachable from the empty map. -/
def nodupKeys (m : Tracker) : Prop :=
  (m.map Prod.fst).Nodup

lemma mapLookup_eq_none_iff (c : Conn) :
    ∀ m : Tracker, mapLookup c m = none ↔ c ∉ m.map Prod.fst
  | [] => by simp [mapLookup]
  | (k, v) :: rest => by
      by_cases hk : k = c
      · subst hk
        simp [mapLookup]
      · simp only [mapLookup, if_neg hk, List.map_cons, List.mem_cons]
        rw [mapLookup_eq_none_iff c rest]
        constructor
        · intro h hmem
          rcases hmem with h1 | h2
          · exact hk h1.symm
          · exact h h2
        · intro h hmem
          exact h (Or.inr hmem)

lemma mapErase_of_lookup_none (c : Conn) :
    ∀ m : Tracker, mapLookup c m = none → mapErase c m = m
  | [] => by intro _; rfl
  | (k, v) :: rest => by
      intro h
      simp only [mapLookup] at h
      by_cases hk : k = c
      · rw [if_pos hk] at h
        exact absurd h (by simp)
      · rw [if_neg hk] at h
        simp only [mapErase, List.filter_cons]
        have : ((k, v).1 != c) = true := by simpa using hk
        rw [if_pos this]
        have := mapErase_of_lookup_none c rest h
        simp only [mapErase] at this
        rw [this]

lemma mapLookup_mapErase_self (c : Conn) :
    ∀ m : Tracker, mapLookup c (mapErase c m) = none
  | [] => rfl
  | (k, v) :: rest => by
      simp only [mapErase, List.filter_cons]
      by_cases hk : k = c
      · have : ((k, v).1 != c) = false := by simpa using hk
        rw [if_neg (by simp [this])]
        exact mapLookup_mapErase_self c rest
      · have : ((k, v).1 != c) = true := by simpa using hk
        rw [if_pos this]
        simp only [mapLookup, if_neg hk]
        exact mapLookup_mapErase_self c rest

lemma nodupKeys_mapErase (c : Conn) (m : Tracker) (h : nodupKeys m) :
    nodupKeys (mapErase c m) := by
  unfold nodupKeys mapErase at *
  exact h.sublist ((List.filter_sublist m).map Prod.fst)

lemma nodupKeys_mapInsert (c : Conn) (ns : ConnState) (m : Tracker) (h : nodupKeys m) :
    nodupKeys (mapInsert c ns m) := by
  unfold nodupKeys mapInsert
  simp only [List.map_cons, List.nodup_cons]
  exact ⟨(mapLookup_eq_none_iff c (mapErase c m)).1 (mapLookup_mapErase_self c m),
    nodupKeys_mapErase c m h⟩

lemma inFlightCount_cons (p : Conn × ConnState) (m : Tracker) :
    inFlightCount (p :: m)
      = (if inFlight p.2 then 1 else 0) + inFlightCount m := by
  simp only [inFlightCount, List.filter_cons]
  by_cases h : inFlight p.2
  · rw [if_pos h, if_pos h, List.length_cons]
    ring
  · rw [if_neg h, if_neg (by simpa using h)]
    simp

lemma inFlightCount_mapErase (c : Conn) :
    ∀ (m : Tracker) (s : ConnState), nodupKeys m → mapLookup c m = some s →
      inFlightCount m = inFlightCount (mapErase c m) + (if inFlight s then 1 else 0)
  | [], s => by intro _ h; simp [mapLookup] at h
  | (k, v) :: rest, s => by
      intro hn hl
      simp only [nodupKeys, List.map_cons, List.nodup_cons] at hn
      simp only [mapLookup] at hl
      by_cases hk : k = c
      · rw [if_pos hk] at hl
        have hv : v = s := by injection hl
        subst hv hk
        have hrest : mapLookup k rest = none :=
          (mapLookup_eq_none_iff k rest).2 hn.1
        simp only [mapErase, List.filter_cons]
        rw [if_neg (by simp)]
        have := mapErase_of_lookup_none k rest hrest
        simp only [mapErase] at this
        rw [this, inFlightCount_cons]
        ring
      · rw [if_neg hk] at hl
        have ih := inFlightCount_mapErase c rest s
          (by exact hn.2) hl
        simp only [mapErase, List.filter_cons]
        rw [if_pos (by simpa using hk)]
        rw [inFlightCount_cons, inFlightCount_cons]
        simp only [mapErase] at ih
        rw [ih]
        ring

lemma connStateV2_tracker (closing hasO : Bool) (st : V2State) (c : Conn) (ns : ConnState) :
    (connStateV2 closing hasO st c ns).1.lastConnState
      = if ns = .StateClosed ∨ ns = .StateHijacked
        then mapErase c st.lastConnState
        else mapInsert c ns st.lastConnState := rfl

lemma connStateV2_counter_eq (closing hasO : Bool) (st : V2State) (c : Conn) (ns : ConnState) :
    (connStateV2 closing hasO st c ns).1.counter
      = (match ns with
         | .StateNew => StartRoutine st.counter
         | .StateActive =>
             if (mapLookup c st.lastConnState).getD .StateNew = .StateIdle
               then StartRoutine st.counter else st.counter
         | .StateIdle => FinishRoutine st.counter
         | .StateClosed =>
             if (mapLookup c st.lastConnState).getD .StateNew ≠ .StateIdle
               then FinishRoutine st.counter else st.counter
         | .StateHijacked =>
             if (mapLookup c st.lastConnState).getD .StateNew ≠ .StateIdle
               then FinishRoutine st.counter else st.counter) := rfl

lemma connStateV2_nodup (closing hasO : Bool) (st : V2State) (c : Conn) (ns : ConnState)
    (h : nodupKeys st.lastConnState) :
    nodupKeys (connStateV2 closing hasO st c ns).1.lastConnState := by
  rw [connStateV2_tracker]
  by_cases hterm : ns = .StateClosed ∨ ns = .StateHijacked
  · rw [if_pos hterm]
    exact nodupKeys_mapErase c _ h
  · rw [if_neg hterm]
    exact nodupKeys_mapInsert c ns _ h

lemma inFlightCount_mapInsert (c : Conn) (ns : ConnState) (m : Tracker) :
    inFlightCount (mapInsert c ns m)
      = (if inFlight ns then 1 else 0) + inFlightCount (mapErase c m) := by
  unfold mapInsert
  exact inFlightCount_cons (c, ns) (mapErase c m)

lemma connStateV2_counter_inv (closing : Bool) (st : V2State) (c : Conn) (ns : ConnState)
    (hv : validEvent st.lastConnState c ns = true)
    (hn : nodupKeys st.lastConnState)
    (hc : st.counter = inFlightCount st.lastConnState) :
    (connStateV2 closing false st c ns).1.counter
      = inFlightCount (connStateV2 closing false st c ns).1.lastConnState := by
  rw [connStateV2_counter_eq, connStateV2_tracker]
  rcases hlook : mapLookup c st.lastConnState with _ | s
  · have hns : ns = .StateNew := by
      simpa [validEvent, hlook] using hv
    subst hns
    have herase : mapErase c st.lastConnState = st.lastConnState :=
      mapErase_of_lookup_none c _ hlook
    simp only [show ¬(ConnState.StateNew = ConnState.StateClosed ∨
        ConnState.StateNew = ConnState.StateHijacked) by simp, if_neg, not_false_iff,
      inFlightCount_mapInsert, herase, hlook]
    simp [StartRoutine, inFlight, hc]
    omega
  · have hstep : validStep s ns = true := by
      simpa [validEvent, hlook] using hv
    have herase := inFlightCount_mapErase c st.lastConnState s hn hlook
    cases s <;> cases ns <;>
      simp_all [validStep, inFlightCount_mapInsert, inFlight, StartRoutine,
        FinishRoutine, hlook] <;>
      omega

lemma runEvents_inv (closing : Bool) :
    ∀ (evs : List (Conn × ConnState)) (st : V2State),
      validEvents closing st evs = true →
      nodupKeys st.lastConnState →
      st.counter = inFlightCount st.lastConnState →
      nodupKeys (runEvents closing st evs).lastConnState ∧
        (runEvents closing st evs).counter
          = inFlightCount (runEvents closing st evs).lastConnState
  | [], st => by
      intro _ hn hc
      exact ⟨hn, hc⟩
  | (c, ns) :: rest, st => by
      intro hv hn hc
      simp only [validEvents, Bool.and_eq_true] at hv
      simp only [runEvents]
      exact runEvents_inv closing rest (connStateV2 closing false st c ns).1 hv.2
        (connStateV2_nodup closing false st c ns hn)
        (connStateV2_counter_inv closing st c ns hv.1 hn hc)

lemma mapLookup_some_mem (c : Conn) (s : ConnState) :
    ∀ m : Tracker, mapLookup c m = some s → (c, s) ∈ m
  | [] => by intro h; simp [mapLookup] at h
  | (k, v) :: rest => by
      intro h
      simp only [mapLookup] at h
      by_cases hk : k = c
      · rw [if_pos hk] at h
        have : v = s := by injection h
        subst this hk
        exact List.mem_cons_self _ _
      · rw [if_neg hk] at h
        exact List.mem_cons_of_mem _ (mapLookup_some_mem c s rest h)

lemma mapLookup_of_mem_nodup (c : Conn) (s : ConnState) :
    ∀ m : Tracker, nodupKeys m → (c, s) ∈ m → mapLookup c m = some s
  | [] => by intro _ h; simp at h
  | (k, v) :: rest => by
      intro hn hm
      simp only [nodupKeys, List.map_cons, List.nodup_cons] at hn
      rcases List.mem_cons.1 hm with h | h
      · have hk : k = c := by
          have := congrArg Prod.fst h.symm
          simpa using this
        have hv : v = s := by
          have := congrArg Prod.snd h.symm
          simpa using this
        simp [mapLookup, hk, hv]
      · have hk : k ≠ c := by
          intro hkc
          subst hkc
          exact hn.1 (by simpa using List.mem_map_of_mem Prod.fst h)
        simp only [mapLookup, if_neg hk]
        exact mapLookup_of_mem_nodup c s rest hn.2 h

lemma inFlightCount_eq_zero_iff (m : Tracker) :
    inFlightCount m = 0 ↔ ∀ p ∈ m, inFlight p.2 = false := by
  unfold inFlightCount
  rw [List.length_eq_zero, List.filter_eq_nil_iff]
  constructor
  · intro h p hp
    have := h p hp
    simpa using this
  · intro h p hp
    simp [h p hp]

/-- Claim C1.  For every connection whose state-transition
notifications respect the per-connection monotonic ordering (New, then
Active alternating with Idle, ending in Closed or Hijacked), the net
effect of the ConnState callback on the drain counter (wg.Add minus
wg.Done) over the whole lifetime is exactly zero.  Stated for the
variant-1 closure folded over the lifetime trace from the zero-valued
lastHTTPState field and a zero counter. -/
theorem C1_no_double_counting (closing : Bool) (tr : List ConnState)
    (hlife : validLifetime tr = true) (hterm : endsTerminal tr = true) :
    runLifetimeV1 closing .StateNew 0 tr = 0 := by
  match tr, hlife with
  | ConnState.StateNew :: rest, hlife => ?_
  have hv : validSeq ConnState.StateNew rest = true := hlife
  rw [runLifetimeV1_cons]
  have hdelta : (connStateV1 closing false false .StateNew .StateNew).wgDelta = 1 := rfl
  rw [hdelta]
  match rest, hv, hterm with
  | [], _, hterm => simp [endsTerminal, isTerminal] at hterm
  | b :: rest2, hv, hterm =>
    have hterm2 : endsTerminal (b :: rest2) = true := hterm
    have := runLifetimeV1_terminal closing (b :: rest2) .StateNew (0 + 1) rfl hv hterm2
    rw [this]
    rfl

/-- Witness for C1 at the concrete lifetime New, Active, Idle, Active,
Closed. -/
theorem C1_no_double_counting_witness :
    validLifetime [ConnState.StateNew, .StateActive, .StateIdle, .StateActive,
        .StateClosed] = true
    ∧ endsTerminal [ConnState.StateNew, .StateActive, .StateIdle, .StateActive,
        .StateClosed] = true
    ∧ runLifetimeV1 true .StateNew 0
        [ConnState.StateNew, .StateActive, .StateIdle, .StateActive, .StateClosed] = 0 :=
  ⟨by decide, by decide,
    C1_no_double_counting true _ (by decide) (by decide)⟩

/-- Claim C2.  For any interleaved sequence of connection-state
notifications in which each connection steps monotonically
(New, Active alternating with Idle, then Closed or Hijacked), after
processing the sequence with the variant-2 ConnState closure the drain
counter equals the number of connections whose tracked state is
non-idle and non-terminal, and it is zero exactly when no tracked
connection is in such a state. -/
theorem C2_drain_correctness (closing : Bool) (evs : List (Conn × ConnState))
    (hv : validEvents closing V2State.initial evs = true) :
    (runEvents closing V2State.initial evs).counter
        = inFlightCount (runEvents closing V2State.initial evs).lastConnState
    ∧ ((runEvents closing V2State.initial evs).counter = 0 ↔
        ∀ c s, mapLookup c (runEvents closing V2State.initial evs).lastConnState = some s →
          inFlight s = false) := by
  have hinv := runEvents_inv closing evs V2State.initial hv
    (by simp [V2State.initial, nodupKeys]) (by simp [V2State.initial, inFlightCount])
  refine ⟨hinv.2, ?_⟩
  rw [hinv.2]
  constructor
  · intro h0 c s hlook
    have hz : inFlightCount (runEvents closing V2State.initial evs).lastConnState = 0 := by
      exact_mod_cast h0
    exact (inFlightCount_eq_zero_iff _).1 hz (c, s) (mapLookup_some_mem c s _ hlook)
  · intro h
    have hz : inFlightCount (runEvents closing V2State.initial evs).lastConnState = 0 := by
      rw [inFlightCount_eq_zero_iff]
      intro p hp
      exact h p.1 p.2 (mapLookup_of_mem_nodup p.1 p.2 _ hinv.1 (by simpa using hp))
    exact_mod_cast hz

/-- Witness for C2 at a concrete two-connection interleaving. -/
theorem C2_drain_correctness_witness :
    validEvents false V2State.initial
        [(0, ConnState.StateNew), (1, .StateNew), (0, .StateActive), (1, .StateActive),
         (0, .StateIdle), (1, .StateClosed), (0, .StateActive), (0, .StateHijacked)] = true
    ∧ ((runEvents false V2State.initial
        [(0, ConnState.StateNew), (1, .StateNew), (0, .StateActive), (1, .StateActive),
         (0, .StateIdle), (1, .StateClosed), (0, .StateActive), (0, .StateHijacked)]).counter
        = inFlightCount (runEvents false V2State.initial
        [(0, ConnState.StateNew), (1, .StateNew), (0, .StateActive), (1, .StateActive),
         (0, .StateIdle), (1, .StateClosed), (0, .StateActive), (0, .StateHijacked)]).lastConnState) :=
  ⟨by decide,
    (C2_drain_correctness false _ (by decide)).1⟩

/-- No binding of the tracker maps a connection to a terminal state. -/
def noTerminalEntries (m : Tracker) : Prop :=
  ∀ p ∈ m, isTerminal p.2 = false

lemma connStateV2_noTerminal (closing hasO : Bool) (st : V2State) (c : Conn)
    (ns : ConnState) (h : noTerminalEntries st.lastConnState) :
    noTerminalEntries (connStateV2 closing hasO st c ns).1.lastConnState := by
  rw [connStateV2_tracker]
  by_cases ht : ns = .StateClosed ∨ ns = .StateHijacked
  · rw [if_pos ht]
    intro p hp
    exact h p (List.mem_of_mem_filter hp)
  · rw [if_neg ht]
    intro p hp
    rcases List.mem_cons.1 hp with hpc | hp2
    · subst hpc
      cases ns <;> simp_all [isTerminal]
    · exact h p (List.mem_of_mem_filter hp2)

lemma runEvents_noTerminal (closing : Bool) :
    ∀ (evs : List (Conn × ConnState)) (st : V2State),
      noTerminalEntries st.lastConnState →
      noTerminalEntries (runEvents closing st evs).lastConnState
  | [], st => by
      intro h
      exact h
  | (c, ns) :: rest, st => by
      intro h
      simp only [runEvents]
      exact runEvents_noTerminal closing rest (connStateV2 closing false st c ns).1
        (connStateV2_noTerminal closing false st c ns h)

/-- Claim C5.  In both variants, a notification that a connection
became StateIdle makes the ConnState callback call conn.Close exactly
when the atomic closing flag is set; with the flag clear the
connection is left open. -/
theorem C5_idle_reap (closing hasSH hasOrg hasO : Bool) (last : ConnState)
    (st : V2State) (c : Conn) :
    ((connStateV2 closing hasO st c .StateIdle).2.closedConn = closing)
    ∧ ((connStateV1 closing hasSH hasOrg last .StateIdle).closedConn = closing) :=
  ⟨rfl, rfl⟩

/-- Claim C6.  On StateClosed or StateHijacked, the drain counter is
decremented exactly when the connection's last observed state was not
StateIdle: settled-at-idle connections have no effect, connections last
seen New or Active lose one unit.  Stated for the variant-2 closure
under the recorded last state, and for the variant-1 wgDelta. -/
theorem C6_closed_decrement (closing hasO : Bool) (st : V2State) (c : Conn)
    (last : ConnState) (h : mapLookup c st.lastConnState = some last) :
    ((connStateV2 closing hasO st c .StateClosed).1.counter
        = if last = .StateIdle then st.counter else st.counter - 1)
    ∧ ((connStateV2 closing hasO st c .StateHijacked).1.counter
        = if last = .StateIdle then st.counter else st.counter - 1)
    ∧ ((connStateV1 closing hasO hasO last .StateClosed).wgDelta
        = if last = .StateIdle then 0 else -1)
    ∧ ((connStateV1 closing hasO hasO last .StateHijacked).wgDelta
        = if last = .StateIdle then 0 else -1) := by
  rw [connStateV2_counter_eq, connStateV2_counter_eq, h]
  by_cases hl : last = .StateIdle <;>
    simp [hl, connStateV1, FinishRoutine]

/-- Witness for C6: a connection settled at StateIdle is closed with no
counter effect. -/
theorem C6_closed_decrement_witness :
    mapLookup 0 [(0, ConnState.StateIdle)] = some ConnState.StateIdle
    ∧ (connStateV2 false false
        { lastConnState := [(0, ConnState.StateIdle)], counter := 0 }
        0 .StateClosed).1.counter = 0 := by
  refine ⟨by decide, ?_⟩
  have h := (C6_closed_decrement false false
    { lastConnState := [(0, ConnState.StateIdle)], counter := 0 }
    0 ConnState.StateIdle (by decide)).1
  simpa using h

/-- Claim C7.  After the variant-2 callback handles a notification, the
lastConnState map has no entry for the connection when the new state is
StateClosed or StateHijacked, and records exactly the new state
otherwise; consequently no reachable tracker retains an entry in a
terminal state. -/
theorem C7_tracker_cleanup (closing hasO : Bool) (st : V2State) (c : Conn)
    (ns : ConnState) :
    (mapLookup c (connStateV2 closing hasO st c ns).1.lastConnState
      = if ns = .StateClosed ∨ ns = .StateHijacked then none else some ns)
    ∧ ∀ (evs : List (Conn × ConnState)) (c2 : Conn) (s : ConnState),
        mapLookup c2 (runEvents closing V2State.initial evs).lastConnState = some s →
        isTerminal s = false := by
  constructor
  · rw [connStateV2_tracker]
    by_cases ht : ns = .StateClosed ∨ ns = .StateHijacked
    · rw [if_pos ht, if_pos ht]
      exact mapLookup_mapErase_self c _
    · rw [if_neg ht, if_neg ht]
      simp [mapInsert, mapLookup]
  · intro evs c2 s hlook
    exact runEvents_noTerminal closing evs V2State.initial
      (by simp [noTerminalEntries, V2State.initial])
      (c2, s) (mapLookup_some_mem c2 s _ hlook)

/-- Witness for C7: closing connection 0 removes its entry. -/
theorem C7_tracker_cleanup_witness :
    mapLookup 0 (connStateV2 true false
        { lastConnState := [(0, ConnState.StateActive)], counter := 1 }
        0 .StateClosed).1.lastConnState = none := by
  have h := (C7_tracker_cleanup true false
    { lastConnState := [(0, ConnState.StateActive)], counter := 1 }
    0 ConnState.StateClosed).1
  simpa using h

/-- Claim C8.  Every handled notification is forwarded: variant 1 calls
the injected stateHandler with the original previous and new states and
then the pre-existing orgConnState handler with the new state, whenever
they are installed; variant 2 likewise chains to the pre-existing
originalConnState handler with the new state. -/
theorem C8_observer_forwarding (closing hasSH hasOrg hasO : Bool) (last ns : ConnState)
    (st : V2State) (c : Conn) :
    ((connStateV1 closing hasSH hasOrg last ns).stateHandlerCall
        = if hasSH then some (last, ns) else none)
    ∧ ((connStateV1 closing hasSH hasOrg last ns).orgConnStateCall
        = if hasOrg then some ns else none)
    ∧ ((connStateV2 closing hasO st c ns).2.originalConnStateCall
        = if hasO then some ns else none) :=
  ⟨rfl, rfl, rfl⟩

/-- State of the variant-1 shutdown channel (chan struct made by
NewWithServer).  Its Close method runs close(s.shutdown); the Go
specification makes close of an already-closed channel panic at run
time. -/
inductive ShutdownChanV1 where
  | opened
  | closedChan
deriving DecidableEq

/-- The variant-1 Close method (server.go lines 127-129): it performs
close(s.shutdown).  The result none models the run-time panic Go
raises when the channel is already closed. -/
def closeV1 : ShutdownChanV1 → Option ShutdownChanV1
  | .opened => some .closedChan
  | .closedChan => none

/-- Call the variant-1 Close n times, propagating a panic. -/
def closeV1N : Nat → ShutdownChanV1 → Option ShutdownChanV1
  | 0, ch => some ch
  | n + 1, ch =>
      match closeV1 ch with
      | none => none
      | some ch2 => closeV1N n ch2

/-- State of the variant-2 shutdown channel as seen by Close while
Serve runs: the background goroutine of Serve performs
s.shutdown <- true and then close(s.shutdown), so the first receive
yields true and every later receive yields the zero value false from
the closed channel.  Receiving never panics. -/
structure ShutdownChanV2 where
  consumed : Bool
deriving DecidableEq

/-- The variant-2 Close method (server.go lines 475-478): it returns
<-s.shutdown, true on the first call and false afterwards. -/
def closeV2 (ch : ShutdownChanV2) : Bool × ShutdownChanV2 :=
  if ch.consumed then (false, ch) else (true, { consumed := true })

/-- Call the variant-2 Close n times. -/
def closeV2N : Nat → ShutdownChanV2 → ShutdownChanV2
  | 0, ch => ch
  | n + 1, ch => closeV2N n (closeV2 ch).2

lemma closeV2N_consumed : ∀ n : Nat, closeV2N n { consumed := true } = { consumed := true }
  | 0 => rfl
  | n + 1 => closeV2N_consumed n

/-- Counterexample to claim C3 as stated: in variant 1, the second of
two Close calls runs close on an already-closed channel, which panics
(modeled as none), so Close is not a safe no-op after the first call. -/
theorem C3_close_counterexample :
    closeV1N 2 ShutdownChanV1.opened = none := rfl

/-- Claim C3, amended.  In variant 2, calling Close any number N ≥ 1 of
times leaves the shutdown channel in the same state as a single call:
the first call returns true, every later call returns false, and no
call panics (closeV2 is total).  In variant 1 only the first Close is
safe. -/
theorem C3_close_idempotent (n : Nat) (h : 1 ≤ n) :
    closeV2N n { consumed := false } = closeV2N 1 { consumed := false }
    ∧ (closeV2 { consumed := false }).1 = true
    ∧ (closeV2 { consumed := true }).1 = false
    ∧ closeV1 ShutdownChanV1.opened = some ShutdownChanV1.closedChan := by
  refine ⟨?_, rfl, rfl, rfl⟩
  match n, h with
  | n + 1, _ =>
    show closeV2N n (closeV2 { consumed := false }).2 = closeV2N 1 { consumed := false }
    simp only [closeV2]
    simpa using closeV2N_consumed n

/-- Witness for the amended C3 at N = 3. -/
theorem C3_close_idempotent_witness :
    1 ≤ 3 ∧ closeV2N 3 { consumed := false } = closeV2N 1 { consumed := false } :=
  ⟨by decide, (C3_close_idempotent 3 (by decide)).1⟩

/-- Errors the underlying serving engine can return from
http.Server.Serve or fcgi.Serve: the sentinel listenerAlreadyClosed
produced by the graceful listener after a requested close, or any
other engine error, carried verbatim. -/
inductive ServeError where
  | listenerAlreadyClosed
  | engineError (code : Nat)
deriving DecidableEq

/-- The variant-1 Serve return policy (server.go lines 298-306): a nil
error or a listenerAlreadyClosed error means a clean shutdown (wait on
the drain counter, return nil); anything else is returned unchanged. -/
def serveReturnV1 (err : Option ServeError) : Option ServeError :=
  match err with
  | none => none
  | some .listenerAlreadyClosed => none
  | some e => some e

/-- The variant-2 Serve return policy (server.go lines 640-647): if the
engine returned nil or the atomic closing flag is set, wait on the
drain counter and return nil; otherwise return the engine error
unchanged. -/
def serveReturnV2 (closing : Bool) (err : Option ServeError) : Option ServeError :=
  match err, closing with
  | none, _ => none
  | some _, true => none
  | some e, false => some e

/-- Claim C4.  Serve returns nil exactly on a clean shutdown-drain and
propagates any other engine error verbatim: in variant 2, nil comes
back iff the engine error was nil or the closing flag was set — so a
non-nil engine error is returned iff the flag was clear — and in
variant 1, nil comes back iff the engine error was nil or the
listenerAlreadyClosed sentinel, all other errors unchanged. -/
theorem C4_serve_return_policy (closing : Bool) (err : Option ServeError) :
    (serveReturnV2 closing err = none ↔ (err = none ∨ closing = true))
    ∧ (∀ e : ServeError, serveReturnV2 false (some e) = some e)
    ∧ (serveReturnV1 err = none ↔
        (err = none ∨ err = some .listenerAlreadyClosed))
    ∧ (∀ n : Nat, serveReturnV1 (some (.engineError n)) = some (.engineError n)) := by
  refine ⟨?_, fun e => rfl, ?_, fun n => rfl⟩
  · rcases err with _ | e <;> cases closing <;> simp [serveReturnV2]
  · rcases err with _ | e <;> [skip; cases e] <;> simp [serveReturnV1]

/-- Outcome of os.Stat on the bind path: the file exists, the error
satisfies os.IsNotExist, or stat failed in some other way. -/
inductive StatResult where
  | found
  | notExist
  | otherError
deriving DecidableEq

/-- Oracle for the operating-system calls listenToUnix can make:
the stat outcome, whether os.Remove succeeds, and whether
net.Listen on the unix socket succeeds. -/
structure UnixFS where
  statResult : StatResult
  removeOk : Bool
  listenOk : Bool
deriving DecidableEq

/-- The operating-system calls, in the order listenToUnix issues them. -/
inductive OSAction where
  | statted
  | removed
  | listened
deriving DecidableEq

/-- What listenToUnix hands back to its caller. -/
inductive UnixListenResult where
  | gotListener
  | statError
  | removeError
  | listenError
deriving DecidableEq

/-- listenToUnix (server.go lines 484-498).  It stats the bind path; if
the file exists it removes the presumed stale socket and returns the
removal error on failure; a stat error other than not-exist is
returned as is; otherwise it calls net.Listen("unix", bind).  The
second component records the OS calls actually made, in order. -/
def listenToUnix (fs : UnixFS) : UnixListenResult × List OSAction :=
  match fs.statResult with
  | .found =>
      if fs.removeOk then
        if fs.listenOk then (.gotListener, [.statted, .removed, .listened])
        else (.listenError, [.statted, .removed, .listened])
      else (.removeError, [.statted, .removed])
  | .notExist =>
      if fs.listenOk then (.gotListener, [.statted, .listened])
      else (.listenError, [.statted, .listened])
  | .otherError => (.statError, [.statted])

/-- Bind addresses are Go strings, modeled as character lists. -/
abbrev Addr := List Char

/-- The variant-2 isUnixNetwork (server.go lines 480-482): the address
is filesystem-path-style when it starts with a slash or a dot. -/
def isUnixNetworkV2 (addr : Addr) : Bool :=
  match addr with
  | [] => false
  | ch :: _ => ch = '/' || ch = '.'

/-- What listen produced: a unix or tcp listener, an OS-level failure,
or the synchronous bind-syntax error from fmt.Errorf. -/
inductive ListenOutcome where
  | unixSocket (r : UnixListenResult)
  | tcpSocket (ok : Bool)
  | parseError
deriving DecidableEq

/-- listen (server.go lines 500-510): filesystem-path-style addresses
go to listenToUnix, addresses containing a colon go to
net.Listen("tcp", bind), and anything else is rejected with an error
while parsing the bind argument. -/
def listen (fs : UnixFS) (tcpOk : Bool) (bind : Addr) : ListenOutcome :=
  if isUnixNetworkV2 bind then .unixSocket (listenToUnix fs).1
  else if bind.contains ':' then .tcpSocket tcpOk
  else .parseError

/-- Did listen hand an error back to ListenAndServe? -/
def listenFailed : ListenOutcome → Bool
  | .unixSocket .gotListener => false
  | .unixSocket _ => true
  | .tcpSocket ok => !ok
  | .parseError => true

/-- How far the variant-2 ListenAndServe got: an error from listen is
returned before Serve is invoked (no accept loop, no server state
touched), otherwise Serve takes over the obtained listener. -/
inductive LASOutcome where
  | errorBeforeServe (o : ListenOutcome)
  | serveStarted (o : ListenOutcome)
deriving DecidableEq

/-- The variant-2 ListenAndServe (server.go lines 516-527): an empty
address defaults to ":http", then listen runs, its error is returned
at once, and only on success is s.Serve entered. -/
def listenAndServeV2 (fs : UnixFS) (tcpOk : Bool) (addr : Addr) : LASOutcome :=
  let addr2 := if addr = [] then [':', 'h', 't', 't', 'p'] else addr
  let o := listen fs tcpOk addr2
  if listenFailed o then .errorBeforeServe o else .serveStarted o

/-- Claim C9.  A nonempty bind address that is neither
filesystem-path-style (leading slash or dot) nor contains a colon
makes ListenAndServe report the parse error synchronously: listen
rejects it and ListenAndServe returns before Serve ever starts,
whatever the operating system would have done. -/
theorem C9_invalid_bind_error (fs : UnixFS) (tcpOk : Bool) (addr : Addr)
    (h0 : addr ≠ [])
    (h1 : isUnixNetworkV2 addr = false)
    (h2 : addr.contains ':' = false) :
    listen fs tcpOk addr = .parseError
    ∧ listenAndServeV2 fs tcpOk addr = .errorBeforeServe .parseError := by
  have hl : listen fs tcpOk addr = .parseError := by
    unfold listen
    rw [h1, h2]
    simp
  refine ⟨hl, ?_⟩
  simp [listenAndServeV2, h0, hl, listenFailed]

/-- Witness for C9 at the concrete address 8080. -/
theorem C9_invalid_bind_error_witness :
    (['8', '0', '8', '0'] : Addr) ≠ []
    ∧ isUnixNetworkV2 ['8', '0', '8', '0'] = false
    ∧ List.contains ['8', '0', '8', '0'] ':' = false
    ∧ listenAndServeV2 { statResult := .notExist, removeOk := true, listenOk := true }
        true ['8', '0', '8', '0'] = .errorBeforeServe .parseError :=
  ⟨by decide, by decide, by decide,
    (C9_invalid_bind_error { statResult := .notExist, removeOk := true, listenOk := true }
      true ['8', '0', '8', '0'] (by decide) (by decide) (by decide)).2⟩

/-- Claim C10.  When binding a unix socket: an existing file at the
bind path is removed before net.Listen runs; a failing removal returns
its error without attempting to listen; and a stat error other than
not-exist is returned without attempting to listen. -/
theorem C10_unix_stale_socket (fs : UnixFS) :
    (fs.statResult = .found → fs.removeOk = true →
      (listenToUnix fs).2 = [.statted, .removed, .listened])
    ∧ (fs.statResult = .found → fs.removeOk = false →
      (listenToUnix fs).1 = .removeError ∧ OSAction.listened ∉ (listenToUnix fs).2)
    ∧ (fs.statResult = .otherError →
      (listenToUnix fs).1 = .statError ∧ OSAction.listened ∉ (listenToUnix fs).2) := by
  obtain ⟨st, rm, li⟩ := fs
  refine ⟨?_, ?_, ?_⟩
  · intro h1 h2
    subst h1
    subst h2
    cases li <;> rfl
  · intro h1 h2
    subst h1
    subst h2
    exact ⟨rfl, by cases li <;> decide⟩
  · intro h1
    subst h1
    exact ⟨rfl, by cases rm <;> cases li <;> decide⟩

/-- Witness for C10: a stale socket is removed, then listening starts. -/
theorem C10_unix_stale_socket_witness :
    (listenToUnix { statResult := .found, removeOk := true, listenOk := true }).2
      = [.statted, .removed, .listened] :=
  (C10_unix_stale_socket { statResult := .found, removeOk := true, listenOk := true }).1
    rfl rfl
